import Mathlib

/-!
Verification development for the `imt-with-proofs` gas benchmarks
(`gas_bench1.py`, `gas_bench2.py`).

The external chain (Anvil behind a JSON-RPC endpoint) is modelled as an
oracle: `txCount` answers `get_transaction_count`, `sendRaw` answers
`send_raw_transaction` with a transaction hash, and `receipt` answers
`wait_for_transaction_receipt`.  Hashes and addresses are modelled as `Nat`;
the final `.hex()` rendering of a hash is an injective rendering that
preserves list length and order, so transaction identifiers are kept as the
hashes themselves.  Per-call arguments (`args_factory(w3, i)`) are modelled
as a pure function of the call index, as the design prescribes.
-/

namespace GasBench

/-- A transaction receipt: `gasUsed` and `status` as returned by
`wait_for_transaction_receipt`. -/
structure Receipt where
  gasUsed : Nat
  status : Nat
  deriving DecidableEq

/-- A built deposit transaction: `from` address, `nonce`, `gasPrice` and the
call-index argument produced by the argument factory. -/
structure Tx where
  sender : Nat
  nonce : Nat
  gasPrice : Nat
  args : Nat
  deriving DecidableEq

instance : Inhabited Tx := ⟨⟨0, 0, 0, 0⟩⟩

/-- The chain oracle used by `gas_bench1.py`: on-chain transaction counts,
submission (returning a hash) and receipt lookup by hash. -/
structure Chain where
  txCount : Nat → Nat
  sendRaw : Tx → Nat
  receipt : Nat → Receipt

/-- The local-nonce dictionary update `base_nonces[acct.address] += 1`
(gas_bench1.py line 114), keyed by address. -/
def updNonce (nonces : Nat → Nat) (acct : Nat) : Nat → Nat :=
  fun a => if a = acct then nonces acct + 1 else nonces a

/-- Phase 1 of `call_deposit_many_multiacct` (gas_bench1.py lines 103-118):
the sign-and-send loop.  `i` is the current call index, the second argument
the number of remaining calls, `nonces` the local `base_nonces` dictionary
(keyed by address).  Returns the final nonce map and the submitted
transactions in submission order. -/
def pipelineSubmit (argsFactory : Nat → Nat) (accounts : List Nat) (gasPrice : Nat) :
    Nat → Nat → (Nat → Nat) → ((Nat → Nat) × List Tx)
  | _, 0, nonces => (nonces, [])
  | i, n + 1, nonces =>
    let acct := accounts.getD (i % accounts.length) 0
    let tx : Tx := { sender := acct, nonce := nonces acct, gasPrice := gasPrice,
                     args := argsFactory i }
    let rest := pipelineSubmit argsFactory accounts gasPrice (i + 1) n (updNonce nonces acct)
    (rest.1, tx :: rest.2)

/-- The transactions submitted by `call_deposit_many_multiacct`, in
submission order, starting from the on-chain nonces
(`base_nonces = {acct: get_transaction_count(acct)}`, line 97). -/
def submittedTxs (chain : Chain) (argsFactory : Nat → Nat) (accounts : List Nat)
    (gasPrice : Nat) (n_calls : Nat) : List Tx :=
  (pipelineSubmit argsFactory accounts gasPrice 0 n_calls (fun a => chain.txCount a)).2

/-- `call_deposit_many_multiacct` (gas_bench1.py lines 95-130).  Phase 1
signs and sends every call; phase 2 collects each receipt's `gasUsed` in
submission order.  With an empty account pool and at least one call the
source raises `ZeroDivisionError` at `accounts[i % len(accounts)]` in the
first loop iteration, before anything else observable happens; the raise is
modelled as `none`.  The returned identifier list is `tx_hashes`
(`.hex()` rendering omitted, see the file header). -/
def call_deposit_many_multiacct (chain : Chain) (argsFactory : Nat → Nat)
    (accounts : List Nat) (gasPrice : Nat) (n_calls : Nat) :
    Option (List Nat × List Nat) :=
  if accounts.length = 0 ∧ 0 < n_calls then none
  else
    let base_nonces : Nat → Nat := fun a => chain.txCount a
    let txs := (pipelineSubmit argsFactory accounts gasPrice 0 n_calls base_nonces).2
    let tx_hashes := txs.map chain.sendRaw
    let gas_used := tx_hashes.map fun h => (chain.receipt h).gasUsed
    some (gas_used, tx_hashes)

theorem pipelineSubmit_length (argsFactory : Nat → Nat) (accounts : List Nat)
    (gasPrice : Nat) : ∀ (n i : Nat) (st : Nat → Nat),
    (pipelineSubmit argsFactory accounts gasPrice i n st).2.length = n := by
  intro n
  induction n with
  | zero => intro i st; rfl
  | succ n ih =>
    intro i st
    simp only [pipelineSubmit, List.length_cons]
    rw [ih]

theorem submittedTxs_length (chain : Chain) (argsFactory : Nat → Nat)
    (accounts : List Nat) (gasPrice n : Nat) :
    (submittedTxs chain argsFactory accounts gasPrice n).length = n :=
  pipelineSubmit_length argsFactory accounts gasPrice n 0 _

theorem pipelineSubmit_getD (argsFactory : Nat → Nat) (accounts : List Nat)
    (gasPrice : Nat) : ∀ (n i : Nat) (st : Nat → Nat) (j : Nat), j < n →
    ((pipelineSubmit argsFactory accounts gasPrice i n st).2.getD j default).sender
        = accounts.getD ((i + j) % accounts.length) 0
      ∧ ((pipelineSubmit argsFactory accounts gasPrice i n st).2.getD j default).args
        = argsFactory (i + j)
      ∧ ((pipelineSubmit argsFactory accounts gasPrice i n st).2.getD j default).gasPrice
        = gasPrice := by
  intro n
  induction n with
  | zero => intro i st j hj; omega
  | succ n ih =>
    intro i st j hj
    rcases j with _ | j
    · simp [pipelineSubmit]
    · have hj2 : j < n := by omega
      have key := ih (i + 1) (updNonce st (accounts.getD (i % accounts.length) 0)) j hj2
      simp only [pipelineSubmit, List.getD_cons_succ]
      refine ⟨?_, ?_, key.2.2⟩
      · rw [key.1]
        congr 2
        omega
      · rw [key.2.1]
        congr 1
        omega

theorem pipelineSubmit_gasPrice (argsFactory : Nat → Nat) (accounts : List Nat)
    (gasPrice : Nat) : ∀ (n i : Nat) (st : Nat → Nat) (t : Tx),
    t ∈ (pipelineSubmit argsFactory accounts gasPrice i n st).2 → t.gasPrice = gasPrice := by
  intro n
  induction n with
  | zero => intro i st t ht; simp [pipelineSubmit] at ht
  | succ n ih =>
    intro i st t ht
    simp only [pipelineSubmit, List.mem_cons] at ht
    rcases ht with h | h
    · rw [h]
    · exact ih (i + 1) _ t h

/-- The nonce bookkeeping of the submission loop: for any account address
`a`, the nonces of that account's transactions form the gapless run
`st a, st a + 1, ...`, and the final local counter has advanced by exactly
the number of that account's transactions. -/
theorem pipelineSubmit_nonces (argsFactory : Nat → Nat) (accounts : List Nat)
    (gasPrice : Nat) : ∀ (n i : Nat) (st : Nat → Nat) (a : Nat),
    (((pipelineSubmit argsFactory accounts gasPrice i n st).2.filter
        (fun t => t.sender == a)).map Tx.nonce
      = List.range' (st a)
          (((pipelineSubmit argsFactory accounts gasPrice i n st).2.filter
              (fun t => t.sender == a)).length))
    ∧ (pipelineSubmit argsFactory accounts gasPrice i n st).1 a
      = st a + ((pipelineSubmit argsFactory accounts gasPrice i n st).2.filter
          (fun t => t.sender == a)).length := by
  intro n
  induction n with
  | zero => intro i st a; simp [pipelineSubmit]
  | succ n ih =>
    intro i st a
    set acct := accounts.getD (i % accounts.length) 0 with hacct
    have key := ih (i + 1) (updNonce st acct) a
    simp only [pipelineSubmit, ← hacct, List.filter_cons, List.map_cons,
      List.length_cons]
    by_cases hcase : acct = a
    · subst hcase
      have hupd : updNonce st acct acct = st acct + 1 := by simp [updNonce]
      rw [hupd] at key
      simp only [beq_self_eq_true, if_true, List.map_cons, List.length_cons]
      refine ⟨?_, ?_⟩
      · rw [List.range'_succ, key.1]
      · rw [key.2]
        omega
    · have hbeq : (acct == a) = false := by
        simp [hcase]
      have hupd : updNonce st acct a = st a := if_neg (fun h => hcase h.symm)
      rw [hupd] at key
      simp only [hbeq, if_false]
      exact key

/-- Prefixes of a longer batch coincide with shorter batches started from the
same state. -/
theorem pipelineSubmit_take (argsFactory : Nat → Nat) (accounts : List Nat)
    (gasPrice : Nat) : ∀ (m n i : Nat) (st : Nat → Nat), m ≤ n →
    (pipelineSubmit argsFactory accounts gasPrice i n st).2.take m
      = (pipelineSubmit argsFactory accounts gasPrice i m st).2 := by
  intro m
  induction m with
  | zero =>
    intro n i st _
    simp [pipelineSubmit]
  | succ m ih =>
    intro n i st h
    rcases n with _ | n
    · omega
    · simp only [pipelineSubmit, List.take_succ_cons]
      rw [ih n (i + 1) (updNonce st (accounts.getD (i % accounts.length) 0)) (by omega)]

/-!
`gas_bench2.py`: the Precount Stepper.  The loop is strictly sequential, so
the chain's response to each transaction is modelled as an oracle indexed by
the checkpoint exponent `k`: `setReceipt k` is the receipt of the
`setDepositCount(2**k - 1)` transaction of checkpoint `k`, `depReceipt k`
and `depHash k` the receipt and hash of the measured deposit of checkpoint
`k`.  The per-call deposit argument `args_factory(w3, k)` and the live nonce
lookups only influence the chain's responses, which the oracle already
captures, so they carry no separate model state.
-/

/-- Chain oracle for the sequential Precount Stepper run. -/
structure Chain2 where
  setReceipt : Nat → Receipt
  depReceipt : Nat → Receipt
  depHash : Nat → Nat

/-- Outcome of the Precount Stepper loop.  `ok` carries the accumulated
`gas_list`, `tx_hashes` and the trace of arguments passed to
`setDepositCount`; the two failure constructors model the two
`RuntimeError` raises (gas_bench2.py lines 171-174 and 188-191) and carry
the failing `k`, the failing `new_count`, and the local accumulators at the
moment of the raise. -/
inductive PrecountOutcome where
  | ok (gas : List Nat) (hashes : List Nat) (sets : List Nat)
  | setFailed (k : Nat) (newCount : Nat) (gas : List Nat) (hashes : List Nat)
      (sets : List Nat)
  | depositFailed (k : Nat) (newCount : Nat) (gas : List Nat) (hashes : List Nat)
      (sets : List Nat)
  deriving DecidableEq

/-- The loop body of `call_deposit_after_precounts` (gas_bench2.py lines
158-196).  `k` is the current checkpoint, the second argument the number of
remaining checkpoints; `gas`, `hashes`, `sets` are the accumulated
`gas_list`, `tx_hashes` and submitted `setDepositCount` arguments.  The
`setDepositCount(new_count)` transaction is submitted before its receipt is
checked, so `sets` already contains `new_count` at either raise;
`gas_list.append` happens only after both status checks pass. -/
def precountLoop (chain : Chain2) : Nat → Nat → List Nat → List Nat → List Nat →
    PrecountOutcome
  | _, 0, gas, hashes, sets => .ok gas hashes sets
  | k, r + 1, gas, hashes, sets =>
    let new_count := 2 ^ k - 1
    let sets2 := sets ++ [new_count]
    if (chain.setReceipt k).status ≠ 1 then
      .setFailed k new_count gas hashes sets2
    else if (chain.depReceipt k).status ≠ 1 then
      .depositFailed k new_count gas hashes sets2
    else
      precountLoop chain (k + 1) r (gas ++ [(chain.depReceipt k).gasUsed])
        (hashes ++ [chain.depHash k]) sets2

/-- `call_deposit_after_precounts` (gas_bench2.py lines 145-198): iterate
`k` from `1` to `max_power` inclusive, returning the parallel `gas_list` and
`tx_hashes` on success; a `RuntimeError` raise is modelled as `none`. -/
def call_deposit_after_precounts (chain : Chain2) (max_power : Nat) :
    Option (List Nat × List Nat) :=
  match precountLoop chain 1 max_power [] [] [] with
  | .ok gas hashes _ => some (gas, hashes)
  | _ => none

/-- A checkpoint succeeds when both its receipts have status 1. -/
def checkpointOk (chain : Chain2) (k : Nat) : Prop :=
  (chain.setReceipt k).status = 1 ∧ (chain.depReceipt k).status = 1

instance (chain : Chain2) (k : Nat) : Decidable (checkpointOk chain k) := by
  unfold checkpointOk
  infer_instance

theorem precountLoop_ok (chain : Chain2) :
    ∀ (r k : Nat) (gas hashes sets : List Nat),
    (∀ j, k ≤ j → j < k + r → checkpointOk chain j) →
    precountLoop chain k r gas hashes sets
      = .ok (gas ++ (List.range' k r).map (fun j => (chain.depReceipt j).gasUsed))
            (hashes ++ (List.range' k r).map chain.depHash)
            (sets ++ (List.range' k r).map (fun j => 2 ^ j - 1)) := by
  intro r
  induction r with
  | zero => intro k gas hashes sets _; simp [precountLoop]
  | succ r ih =>
    intro k gas hashes sets h
    have hk : checkpointOk chain k := h k le_rfl (by omega)
    simp only [precountLoop, hk.1, hk.2, ne_eq, not_true_eq_false, if_false]
    rw [ih (k + 1) _ _ _ (fun j h1 h2 => h j (by omega) (by omega))]
    simp [List.range'_succ, List.append_assoc]

theorem precountLoop_fail (chain : Chain2) :
    ∀ (r k m : Nat) (gas hashes sets : List Nat), k ≤ m → m < k + r →
    (∀ j, k ≤ j → j < m → checkpointOk chain j) →
    ¬ checkpointOk chain m →
    precountLoop chain k r gas hashes sets
      = (if (chain.setReceipt m).status ≠ 1 then
          PrecountOutcome.setFailed m (2 ^ m - 1)
            (gas ++ (List.range' k (m - k)).map (fun j => (chain.depReceipt j).gasUsed))
            (hashes ++ (List.range' k (m - k)).map chain.depHash)
            ((sets ++ (List.range' k (m - k)).map (fun j => 2 ^ j - 1)) ++ [2 ^ m - 1])
        else
          PrecountOutcome.depositFailed m (2 ^ m - 1)
            (gas ++ (List.range' k (m - k)).map (fun j => (chain.depReceipt j).gasUsed))
            (hashes ++ (List.range' k (m - k)).map chain.depHash)
            ((sets ++ (List.range' k (m - k)).map (fun j => 2 ^ j - 1)) ++ [2 ^ m - 1])) := by
  intro r
  induction r with
  | zero => intro k m gas hashes sets h1 h2; omega
  | succ r ih =>
    intro k m gas hashes sets h1 h2 hprev hfail
    by_cases hkm : k = m
    · subst hkm
      have h0 : k - k = 0 := Nat.sub_self k
      simp only [h0, List.range'_zero, List.map_nil, List.append_nil]
      by_cases hset : (chain.setReceipt k).status = 1
      · have hdep : (chain.depReceipt k).status ≠ 1 := by
          intro hd; exact hfail ⟨hset, hd⟩
        simp [precountLoop, hset, hdep]
      · simp [precountLoop, hset]
    · have hk : checkpointOk chain k := hprev k le_rfl (by omega)
      simp only [precountLoop, hk.1, hk.2, ne_eq, not_true_eq_false, if_false]
      rw [ih (k + 1) m _ _ _ (by omega) (by omega)
        (fun j hj1 hj2 => hprev j (by omega) hj2) hfail]
      have hm : m - k = (m - (k + 1)) + 1 := by omega
      rw [hm, List.range'_succ]
      simp [List.append_assoc]

/-!
Environment-driven configuration (gas_bench1.py lines 18-31, gas_bench2.py
lines 18-24).  The process environment is a partial map from variable names
to strings; `os.environ.get(key, default)` is `envGet`.  Python `int()` is
modelled on non-negative decimal numerals (`pyInt`), the only form this
program's defaults and documented overrides use; a `ValueError` on a
non-numeral is `none`.
-/

/-- `os.environ.get(key, default)`. -/
def envGet (env : String → Option String) (key dflt : String) : String :=
  (env key).getD dflt

/-- Accumulating decimal parser underlying `pyInt`. -/
def pyIntChars : List Char → Nat → Option Nat
  | [], acc => some acc
  | c :: cs, acc =>
    if c.isDigit then pyIntChars cs (acc * 10 + (c.toNat - 48)) else none

/-- Python `int()` on a non-negative decimal numeral; `int("")` raises. -/
def pyInt (s : String) : Option Nat :=
  match s.data with
  | [] => none
  | l => pyIntChars l 0

/-- `BLOCK_TIME = int(os.environ.get("BLOCK_TIME", "0"))` (gas_bench1.py
line 20). -/
def BLOCK_TIME (env : String → Option String) : Option Nat :=
  pyInt (envGet env "BLOCK_TIME" "0")

/-- `NUM_ACCOUNTS = int(os.environ.get("NUM_ACCOUNTS", "20"))` (gas_bench1.py
line 22). -/
def NUM_ACCOUNTS (env : String → Option String) : Option Nat :=
  pyInt (envGet env "NUM_ACCOUNTS" "20")

/-- `N = int(os.environ.get("N", "25000"))` (gas_bench1.py line 27). -/
def N (env : String → Option String) : Option Nat :=
  pyInt (envGet env "N" "25000")

/-- `GAS_PRICE_GWEI = int(os.environ.get("GAS_GWEI", "1"))` (gas_bench1.py
line 28, gas_bench2.py line 21). -/
def GAS_PRICE_GWEI (env : String → Option String) : Option Nat :=
  pyInt (envGet env "GAS_GWEI" "1")

/-- `w3.to_wei(g, "gwei")`: one gwei is `10 ^ 9` wei. -/
def to_wei_gwei (g : Nat) : Nat := g * 1000000000

/-- `ANVIL_CMD = ["anvil", "--silent"]` (gas_bench1.py line 24): the exact
command used to start the chain subprocess. -/
def ANVIL_CMD : List String := ["anvil", "--silent"]

/-- The address pool built by `prepare_accounts` (gas_bench1.py lines
56-88): the base Anvil account followed by `num_accounts - 1`
deterministically derived extras.  Key derivation (keccak of `"extra-i"`)
and the funding transfers are chain-side effects abstracted into
`extraAddr`; `range(num_accounts - 1)` is empty for `num_accounts ≤ 1`,
matching Python, so the base account is always present. -/
def prepare_accounts (baseAddr : Nat) (extraAddr : Nat → Nat)
    (num_accounts : Nat) : List Nat :=
  baseAddr :: (List.range (num_accounts - 1)).map extraAddr

/-- The configuration-dependent behaviour of `main` in gas_bench1.py: the
module-level constants are read (a parse failure at any of them aborts the
program at import time), then `main` starts the chain with `ANVIL_CMD`,
builds the pool with `NUM_ACCOUNTS`, and runs the Pipeliner `N` times per
contract with gas price `to_wei_gwei GAS_PRICE_GWEI`.  `BLOCK_TIME` is
evaluated at module load and bound, and is referenced nowhere else in the
source. -/
def gasBench1FromEnv (env : String → Option String) (chain : Chain)
    (argsFactory : Nat → Nat) (baseAddr : Nat) (extraAddr : Nat → Nat) :
    Option (List String × List Nat × Option (List Nat × List Nat)) := do
  let _blockTime ← BLOCK_TIME env
  let numAccounts ← NUM_ACCOUNTS env
  let nCalls ← N env
  let gasGwei ← GAS_PRICE_GWEI env
  let accounts := prepare_accounts baseAddr extraAddr numAccounts
  some (ANVIL_CMD, accounts,
    call_deposit_many_multiacct chain argsFactory accounts
      (to_wei_gwei gasGwei) nCalls)

/-!
CSV output (`save_csv`, gas_bench1.py lines 251-261 and gas_bench2.py lines
211-221; the two functions are identical up to the output file name).
Strings are modelled as `List Char`; Python `f"{i}"` rendering of a
non-negative int is `natDigits`.
-/

/-- The decimal digit characters used when rendering an int. -/
def digitChar (d : Nat) : Char :=
  match d with
  | 0 => '0'
  | 1 => '1'
  | 2 => '2'
  | 3 => '3'
  | 4 => '4'
  | 5 => '5'
  | 6 => '6'
  | 7 => '7'
  | 8 => '8'
  | 9 => '9'
  | _ => '*'

/-- Decimal rendering of a non-negative int, as Python `f"{i}"` produces. -/
def natDigits (n : Nat) : List Char :=
  if n < 10 then [digitChar n]
  else natDigits (n / 10) ++ [digitChar (n % 10)]
termination_by n
decreasing_by exact Nat.div_lt_self (by omega) (by norm_num)

/-- One data row written by `save_csv`:
`f"{name},{i},{gas},{txh}\n"` (without the terminating newline, which
separates rows). -/
def csvLine (name : List Char) (i gas : Nat) (txh : List Char) : List Char :=
  name ++ [','] ++ natDigits i ++ [','] ++ natDigits gas ++ [','] ++ txh

/-- `save_csv` (gas_bench1.py lines 251-261): the header line followed by
one line per recorded result, iterating the results dict in insertion
order. -/
def save_csv (all_results : List (List Char × List (Nat × Nat × List Char))) :
    List (List Char) :=
  "contract,i,gas,txhash".data ::
    all_results.flatMap (fun nr => nr.2.map (fun row => csvLine nr.1 row.1 row.2.1 row.2.2))

theorem digitChar_ne_comma (d : Nat) : digitChar d ≠ ',' := by
  unfold digitChar
  split <;> decide

theorem natDigits_mem (n : Nat) : ∀ c ∈ natDigits n, ∃ d, c = digitChar d := by
  induction n using Nat.strong_induction_on with
  | _ n ih =>
    rw [natDigits]
    split
    · intro c hc
      rw [List.mem_singleton] at hc
      exact ⟨n, hc⟩
    · intro c hc
      rcases List.mem_append.1 hc with h1 | h2
      · exact ih (n / 10) (Nat.div_lt_self (by omega) (by norm_num)) c h1
      · exact ⟨n % 10, List.mem_singleton.1 h2⟩

theorem natDigits_count_comma (n : Nat) : (natDigits n).count ',' = 0 := by
  rw [List.count_eq_zero]
  intro hmem
  rcases natDigits_mem n ',' hmem with ⟨d, hd⟩
  exact digitChar_ne_comma d hd.symm

theorem csvLine_count_comma (name : List Char) (i gas : Nat) (txh : List Char)
    (hn : ',' ∉ name) (ht : ',' ∉ txh) : (csvLine name i gas txh).count ',' = 3 := by
  have h1 : name.count ',' = 0 := List.count_eq_zero.2 hn
  have h2 : txh.count ',' = 0 := List.count_eq_zero.2 ht
  simp [csvLine, List.count_append, h1, h2, natDigits_count_comma, List.count_singleton]

/-!
Process lifecycle of `main` (gas_bench1.py lines 315-371, gas_bench2.py
lines 257-315).  `main` first runs `forge build` outside any handler, then
enters `try: anvil = start_anvil(); ... finally: stop_process(anvil)`.  The
body is a fixed sequence of fallible regions; the run is modelled as the
trace of regions entered, stopping at the first raise, with the `finally`
clause appending the `stop_process` step on every exit from the `try`.
-/

/-- The regions of `main`, in source order. -/
inductive Action where
  | buildCmd
  | startAnvil
  | connect
  | prepareAccounts
  | loadArtifact (idx : Nat)
  | deploy (idx : Nat)
  | runBench (idx : Nat)
  | saveCsv
  | makePlots
  | stopProcess
  deriving DecidableEq

/-- Run a sequence of fallible regions: the trace of regions entered and
whether all of them succeeded.  A failed region ends the run (its raise
propagates). -/
def runSteps : List (Action × Bool) → List Action × Bool
  | [] => ([], true)
  | (a, ok) :: rest =>
    if ok then
      let r := runSteps rest
      (a :: r.1, r.2)
    else ([a], false)

/-- Success or failure of each fallible region of gas_bench1.py's `main`
(the two entries of `CONTRACTS` give the two load/deploy/bench indices). -/
structure Env1 where
  buildOk : Bool
  startOk : Bool
  connectOk : Bool
  prepareOk : Bool
  load1Ok : Bool
  deploy1Ok : Bool
  load2Ok : Bool
  deploy2Ok : Bool
  bench1Ok : Bool
  bench2Ok : Bool
  saveOk : Bool
  plotsOk : Bool

/-- `main` of gas_bench1.py as a trace.  `run(BUILD_CMD)` precedes the
`try`, so a build failure aborts with no cleanup step; once the `try` is
entered, `finally: stop_process(anvil)` runs on every exit path, normal or
exceptional (`stop_process(None)` is a no-op when `start_anvil` itself
raised before assigning `anvil`). -/
def gasBench1Main (e : Env1) : List Action × Bool :=
  if e.buildOk = false then ([.buildCmd], false)
  else
    let body := [(Action.startAnvil, e.startOk), (Action.connect, e.connectOk),
      (Action.prepareAccounts, e.prepareOk),
      (Action.loadArtifact 0, e.load1Ok), (Action.deploy 0, e.deploy1Ok),
      (Action.loadArtifact 1, e.load2Ok), (Action.deploy 1, e.deploy2Ok),
      (Action.runBench 0, e.bench1Ok), (Action.runBench 1, e.bench2Ok),
      (Action.saveCsv, e.saveOk), (Action.makePlots, e.plotsOk)]
    let r := runSteps body
    (Action.buildCmd :: r.1 ++ [Action.stopProcess], r.2)

/-- Success or failure of each fallible region of gas_bench2.py's `main`
(it uses the single base account, so there is no account-preparation
region). -/
structure Env2 where
  buildOk : Bool
  startOk : Bool
  connectOk : Bool
  load1Ok : Bool
  deploy1Ok : Bool
  load2Ok : Bool
  deploy2Ok : Bool
  bench1Ok : Bool
  bench2Ok : Bool
  saveOk : Bool
  plotsOk : Bool

/-- `main` of gas_bench2.py as a trace; same shape as gas_bench1.py's. -/
def gasBench2Main (e : Env2) : List Action × Bool :=
  if e.buildOk = false then ([.buildCmd], false)
  else
    let body := [(Action.startAnvil, e.startOk), (Action.connect, e.connectOk),
      (Action.loadArtifact 0, e.load1Ok), (Action.deploy 0, e.deploy1Ok),
      (Action.loadArtifact 1, e.load2Ok), (Action.deploy 1, e.deploy2Ok),
      (Action.runBench 0, e.bench1Ok), (Action.runBench 1, e.bench2Ok),
      (Action.saveCsv, e.saveOk), (Action.makePlots, e.plotsOk)]
    let r := runSteps body
    (Action.buildCmd :: r.1 ++ [Action.stopProcess], r.2)

/-! Helper lemmas shared by the claim theorems. -/

theorem getD_map_of_lt {α β : Type} (f : α → β) (l : List α) (i : Nat) (d : α)
    (d2 : β) (hd : i < l.length) : (l.map f).getD i d2 = f (l.getD i d) := by
  rw [List.getD_eq_getElem?_getD, List.getD_eq_getElem?_getD, List.getElem?_map,
    List.getElem?_eq_getElem hd]
  rfl

/-- Closed form of the Pipeliner on a pool that does not make it raise:
both output lists are the submitted-transaction list pushed through the
chain oracle. -/
theorem call_deposit_many_multiacct_eq (chain : Chain) (argsFactory : Nat → Nat)
    (accounts : List Nat) (gasPrice n_calls : Nat)
    (h : 0 < accounts.length ∨ n_calls = 0) :
    call_deposit_many_multiacct chain argsFactory accounts gasPrice n_calls
      = some
        (((submittedTxs chain argsFactory accounts gasPrice n_calls).map
            chain.sendRaw).map (fun x => (chain.receipt x).gasUsed),
         (submittedTxs chain argsFactory accounts gasPrice n_calls).map
           chain.sendRaw) := by
  have hcond : ¬ (accounts.length = 0 ∧ 0 < n_calls) := by omega
  rw [call_deposit_many_multiacct, if_neg hcond]
  rfl

/-- Chain oracle used for concrete scenarios: every receipt is a success
with `gasUsed = 21000` (the stub chain of the end-to-end scenario). -/
def stubChain : Chain where
  txCount := fun _ => 0
  sendRaw := fun _ => 0
  receipt := fun _ => { gasUsed := 21000, status := 1 }

/-- C1.  For every call count `N ≥ 1` and every account pool, the Pipeliner
(`call_deposit_many_multiacct`) returns a gas-used list and a
transaction-identifier list each of length exactly `N`, whose `i`-th entries
correspond to the `i`-th submitted call: entry `i` of the identifier list is
the hash of the `i`-th submitted transaction, and entry `i` of the gas list
is that transaction's receipt's `gasUsed` (so both outputs are in submission
order).  The pool hypothesis reflects that a pool built by
`prepare_accounts` always contains at least the base account; the theorem
covers every `N`, in particular every `N ≥ 1`. -/
theorem claim_C1 (chain : Chain) (argsFactory : Nat → Nat) (accounts : List Nat)
    (gasPrice n_calls : Nat) (h : 0 < accounts.length) :
    ∃ gas txh,
      call_deposit_many_multiacct chain argsFactory accounts gasPrice n_calls
        = some (gas, txh)
      ∧ gas.length = n_calls ∧ txh.length = n_calls
      ∧ ∀ i, i < n_calls →
          txh.getD i 0
            = chain.sendRaw
                ((submittedTxs chain argsFactory accounts gasPrice n_calls).getD i
                  default)
          ∧ gas.getD i 0 = (chain.receipt (txh.getD i 0)).gasUsed := by
  refine ⟨_, _, call_deposit_many_multiacct_eq chain argsFactory accounts gasPrice
    n_calls (Or.inl h), ?_, ?_, ?_⟩
  · rw [List.length_map, List.length_map, submittedTxs_length]
  · rw [List.length_map, submittedTxs_length]
  · intro i hi
    have hlen : i < (submittedTxs chain argsFactory accounts gasPrice n_calls).length := by
      rw [submittedTxs_length]; exact hi
    have hlen2 :
        i < ((submittedTxs chain argsFactory accounts gasPrice n_calls).map
          chain.sendRaw).length := by
      rw [List.length_map]; exact hlen
    constructor
    · exact getD_map_of_lt chain.sendRaw _ i default 0 hlen
    · rw [getD_map_of_lt (fun x => (chain.receipt x).gasUsed) _ i 0 0 hlen2]

theorem claim_C1_witness :
    0 < ([5] : List Nat).length
    ∧ ∃ gas txh,
        call_deposit_many_multiacct stubChain (fun i => i) [5] 7 2
          = some (gas, txh)
        ∧ gas.length = 2 ∧ txh.length = 2
        ∧ ∀ i, i < 2 →
            txh.getD i 0
              = stubChain.sendRaw
                  ((submittedTxs stubChain (fun i => i) [5] 7 2).getD i default)
            ∧ gas.getD i 0 = (stubChain.receipt (txh.getD i 0)).gasUsed :=
  ⟨by decide, claim_C1 stubChain (fun i => i) [5] 7 2 (by decide)⟩

/-- C2.  Round-robin assignment: the `i`-th submitted transaction of a
pipelined batch is sent from account `i mod num_accounts` of the pool; in
particular 5 calls over the 2-account pool `[0, 1]` are sent from accounts
`[0, 1, 0, 1, 0]`, and against a stub chain whose receipts are all successes
with `gasUsed = 21000` the Pipeliner returns five gas values all equal to
`21000`. -/
theorem claim_C2 :
    (∀ (chain : Chain) (argsFactory : Nat → Nat) (accounts : List Nat)
        (gasPrice n_calls i : Nat), 0 < accounts.length → i < n_calls →
        ((submittedTxs chain argsFactory accounts gasPrice n_calls).getD i
            default).sender
          = accounts.getD (i % accounts.length) 0)
    ∧ (submittedTxs stubChain (fun i => i) [0, 1] 1000000000 5).map Tx.sender
        = [0, 1, 0, 1, 0]
    ∧ call_deposit_many_multiacct stubChain (fun i => i) [0, 1] 1000000000 5
        = some ([21000, 21000, 21000, 21000, 21000], [0, 0, 0, 0, 0]) := by
  refine ⟨?_, by decide, by decide⟩
  intro chain argsFactory accounts gasPrice n_calls i _ hi
  have := (pipelineSubmit_getD argsFactory accounts gasPrice n_calls 0
    (fun a => chain.txCount a) i hi).1
  rw [submittedTxs, this, Nat.zero_add]

theorem claim_C2_witness :
    0 < ([0, 1] : List Nat).length ∧ 2 < 5
    ∧ ((submittedTxs stubChain (fun i => i) [0, 1] 1000000000 5).getD 2
          default).sender
        = ([0, 1] : List Nat).getD (2 % ([0, 1] : List Nat).length) 0 :=
  ⟨by decide, by decide,
    claim_C2.1 stubChain (fun i => i) [0, 1] 1000000000 5 2 (by decide) (by decide)⟩

/-- C3.  For every account address `a` and every prefix (length `m ≤ N`) of
a pipelined batch, the nonces assigned to `a`'s transactions, in submission
order, are exactly the consecutive run starting at `a`'s on-chain
transaction count queried at batch start (`List.range'` of consecutive
naturals: strictly increasing and gapless). -/
theorem claim_C3 (chain : Chain) (argsFactory : Nat → Nat) (accounts : List Nat)
    (gasPrice n_calls a m : Nat) (_hacc : 0 < accounts.length) (hm : m ≤ n_calls) :
    (((submittedTxs chain argsFactory accounts gasPrice n_calls).take m).filter
        (fun t => t.sender == a)).map Tx.nonce
      = List.range' (chain.txCount a)
          ((((submittedTxs chain argsFactory accounts gasPrice n_calls).take m).filter
              (fun t => t.sender == a)).length) := by
  rw [submittedTxs,
    pipelineSubmit_take argsFactory accounts gasPrice m n_calls 0 _ hm]
  exact (pipelineSubmit_nonces argsFactory accounts gasPrice m 0
    (fun x => chain.txCount x) a).1

theorem claim_C3_witness :
    0 < ([0, 1] : List Nat).length ∧ 3 ≤ 5
    ∧ (((submittedTxs stubChain (fun i => i) [0, 1] 1000000000 5).take 3).filter
          (fun t => t.sender == 0)).map Tx.nonce
        = List.range' (stubChain.txCount 0)
            ((((submittedTxs stubChain (fun i => i) [0, 1] 1000000000 5).take 3).filter
                (fun t => t.sender == 0)).length) :=
  ⟨by decide, by decide,
    claim_C3 stubChain (fun i => i) [0, 1] 1000000000 5 0 3 (by decide) (by decide)⟩

/-- C6.  The Pipeliner never inspects receipt status: its whole output is
unchanged under any change of receipt statuses (first conjunct: two chains
agreeing on everything but receipt status produce identical results), and
whatever the statuses are it returns `some` with each call's `gasUsed`
recorded as-is — it never raises and never retries. -/
theorem claim_C6 :
    (∀ (c c2 : Chain) (argsFactory : Nat → Nat) (accounts : List Nat)
        (gasPrice n_calls : Nat),
      c.txCount = c2.txCount → c.sendRaw = c2.sendRaw →
      (∀ x, (c.receipt x).gasUsed = (c2.receipt x).gasUsed) →
      call_deposit_many_multiacct c argsFactory accounts gasPrice n_calls
        = call_deposit_many_multiacct c2 argsFactory accounts gasPrice n_calls)
    ∧ ∀ (c : Chain) (argsFactory : Nat → Nat) (accounts : List Nat)
        (gasPrice n_calls : Nat), 0 < accounts.length →
      ∃ gas txh,
        call_deposit_many_multiacct c argsFactory accounts gasPrice n_calls
          = some (gas, txh)
        ∧ ∀ i, i < n_calls →
            gas.getD i 0
              = (c.receipt
                  (c.sendRaw
                    ((submittedTxs c argsFactory accounts gasPrice n_calls).getD i
                      default))).gasUsed := by
  constructor
  · intro c c2 argsFactory accounts gasPrice n_calls h1 h2 h3
    by_cases hc : accounts.length = 0 ∧ 0 < n_calls
    · rw [call_deposit_many_multiacct, if_pos hc,
        call_deposit_many_multiacct, if_pos hc]
    · rw [call_deposit_many_multiacct, if_neg hc,
        call_deposit_many_multiacct, if_neg hc]
      have htxs : (pipelineSubmit argsFactory accounts gasPrice 0 n_calls
            (fun a => c.txCount a)).2
          = (pipelineSubmit argsFactory accounts gasPrice 0 n_calls
            (fun a => c2.txCount a)).2 := by
        rw [h1]
      simp only [htxs, h2]
      congr 1
      congr 1
      exact List.map_congr_left (fun x _ => h3 x)
  · intro c argsFactory accounts gasPrice n_calls h
    refine ⟨_, _, call_deposit_many_multiacct_eq c argsFactory accounts gasPrice
      n_calls (Or.inl h), ?_⟩
    intro i hi
    have hlen : i < (submittedTxs c argsFactory accounts gasPrice n_calls).length := by
      rw [submittedTxs_length]; exact hi
    have hlen2 :
        i < ((submittedTxs c argsFactory accounts gasPrice n_calls).map
          c.sendRaw).length := by
      rw [List.length_map]; exact hlen
    rw [getD_map_of_lt (fun x => (c.receipt x).gasUsed) _ i 0 0 hlen2,
      getD_map_of_lt c.sendRaw _ i default 0 hlen]

/-- A chain identical to `stubChain` except that every receipt is a
failure (`status = 0`). -/
def stubChainFailing : Chain where
  txCount := fun _ => 0
  sendRaw := fun _ => 0
  receipt := fun _ => { gasUsed := 21000, status := 0 }

theorem claim_C6_witness :
    call_deposit_many_multiacct stubChainFailing (fun i => i) [0, 1] 1000000000 3
      = call_deposit_many_multiacct stubChain (fun i => i) [0, 1] 1000000000 3 :=
  claim_C6.1 stubChainFailing stubChain (fun i => i) [0, 1] 1000000000 3 rfl rfl
    (fun _ => rfl)

/-- C10.  With `n_calls = 0` the loop bodies never run: the Pipeliner
submits nothing, returns two empty lists, and the local nonce map is still
exactly the on-chain transaction counts queried at batch start.  This holds
for every pool, including the empty one (`range(0)` runs no iteration before
the indexing that would raise). -/
theorem claim_C10 (chain : Chain) (argsFactory : Nat → Nat) (accounts : List Nat)
    (gasPrice : Nat) :
    call_deposit_many_multiacct chain argsFactory accounts gasPrice 0
        = some ([], [])
    ∧ (pipelineSubmit argsFactory accounts gasPrice 0 0
        (fun x => chain.txCount x)).2 = []
    ∧ ∀ a, (pipelineSubmit argsFactory accounts gasPrice 0 0
        (fun x => chain.txCount x)).1 a = chain.txCount a := by
  refine ⟨?_, rfl, fun a => rfl⟩
  rw [call_deposit_many_multiacct, if_neg (by omega)]
  rfl

/-- C4.  A Precount Stepper run over `K` checkpoints in which every receipt
succeeds produces exactly `K` result rows, one per checkpoint, in increasing
order `k = 1..K`: row `k` (position `k - 1`) holds the measured deposit's
`gasUsed` and transaction hash for checkpoint `k`, and the `setDepositCount`
argument submitted at checkpoint `k` is exactly `2 ^ k - 1`. -/
theorem claim_C4 (chain : Chain2) (K : Nat)
    (h : ∀ k, 1 ≤ k → k ≤ K → checkpointOk chain k) :
    call_deposit_after_precounts chain K
        = some ((List.range' 1 K).map (fun k => (chain.depReceipt k).gasUsed),
                (List.range' 1 K).map chain.depHash)
    ∧ precountLoop chain 1 K [] [] []
        = .ok ((List.range' 1 K).map (fun k => (chain.depReceipt k).gasUsed))
              ((List.range' 1 K).map chain.depHash)
              ((List.range' 1 K).map (fun k => 2 ^ k - 1)) := by
  have hloop := precountLoop_ok chain K 1 [] [] [] (fun j h1 h2 => h j h1 (by omega))
  simp only [List.nil_append] at hloop
  exact ⟨by rw [call_deposit_after_precounts, hloop], hloop⟩

/-- All-success stepper chain used to witness C4. -/
def chainAllOk : Chain2 where
  setReceipt := fun _ => { gasUsed := 30000, status := 1 }
  depReceipt := fun k => { gasUsed := 40000 + k, status := 1 }
  depHash := fun k => 100 + k

theorem claim_C4_witness :
    call_deposit_after_precounts chainAllOk 3
        = some ((List.range' 1 3).map (fun k => (chainAllOk.depReceipt k).gasUsed),
                (List.range' 1 3).map chainAllOk.depHash)
    ∧ precountLoop chainAllOk 1 3 [] [] []
        = .ok ((List.range' 1 3).map (fun k => (chainAllOk.depReceipt k).gasUsed))
              ((List.range' 1 3).map chainAllOk.depHash)
              ((List.range' 1 3).map (fun k => 2 ^ k - 1)) :=
  claim_C4 chainAllOk 3 (fun _ _ _ => ⟨rfl, rfl⟩)

/-- C5.  If checkpoints `1..k-1` succeed and the state-setting call (first
case) or the measured deposit (second case) of checkpoint `k ≤ K` yields a
non-success receipt, the run raises immediately (`none`): the loop ends in
the corresponding failure outcome at `k`, whose accumulators hold exactly
the rows of checkpoints `1..k-1` — no row for `k` or any later checkpoint
(the failed checkpoint's `setDepositCount(2 ^ k - 1)` was already submitted,
so it closes the submitted-argument trace). -/
theorem claim_C5 (chain : Chain2) (K k : Nat) (h1 : 1 ≤ k) (h2 : k ≤ K)
    (hprev : ∀ j, 1 ≤ j → j < k → checkpointOk chain j) :
    ((chain.setReceipt k).status ≠ 1 →
      call_deposit_after_precounts chain K = none
      ∧ precountLoop chain 1 K [] [] []
        = .setFailed k (2 ^ k - 1)
            ((List.range' 1 (k - 1)).map (fun j => (chain.depReceipt j).gasUsed))
            ((List.range' 1 (k - 1)).map chain.depHash)
            ((List.range' 1 (k - 1)).map (fun j => 2 ^ j - 1) ++ [2 ^ k - 1]))
    ∧ ((chain.setReceipt k).status = 1 → (chain.depReceipt k).status ≠ 1 →
      call_deposit_after_precounts chain K = none
      ∧ precountLoop chain 1 K [] [] []
        = .depositFailed k (2 ^ k - 1)
            ((List.range' 1 (k - 1)).map (fun j => (chain.depReceipt j).gasUsed))
            ((List.range' 1 (k - 1)).map chain.depHash)
            ((List.range' 1 (k - 1)).map (fun j => 2 ^ j - 1) ++ [2 ^ k - 1])) := by
  constructor
  · intro hset
    have hfail : ¬ checkpointOk chain k := fun hc => hset hc.1
    have hloop := precountLoop_fail chain K 1 k [] [] [] h1 (by omega) hprev hfail
    rw [if_pos hset] at hloop
    simp only [List.nil_append] at hloop
    exact ⟨by rw [call_deposit_after_precounts, hloop], hloop⟩
  · intro hset hdep
    have hfail : ¬ checkpointOk chain k := fun hc => hdep hc.2
    have hloop := precountLoop_fail chain K 1 k [] [] [] h1 (by omega) hprev hfail
    rw [if_neg (by simpa using hset)] at hloop
    simp only [List.nil_append] at hloop
    exact ⟨by rw [call_deposit_after_precounts, hloop], hloop⟩

/-- Stepper chain whose `setDepositCount` receipt fails exactly at
checkpoint 2, used to witness C5. -/
def chainFailAt2 : Chain2 where
  setReceipt := fun k => { gasUsed := 30000, status := if k = 2 then 0 else 1 }
  depReceipt := fun k => { gasUsed := 50000 + k, status := 1 }
  depHash := fun k => 200 + k

theorem claim_C5_witness :
    (chainFailAt2.setReceipt 2).status ≠ 1
    ∧ (call_deposit_after_precounts chainFailAt2 3 = none
      ∧ precountLoop chainFailAt2 1 3 [] [] []
        = .setFailed 2 (2 ^ 2 - 1)
            ((List.range' 1 (2 - 1)).map
              (fun j => (chainFailAt2.depReceipt j).gasUsed))
            ((List.range' 1 (2 - 1)).map chainFailAt2.depHash)
            ((List.range' 1 (2 - 1)).map (fun j => 2 ^ j - 1) ++ [2 ^ 2 - 1])) :=
  ⟨by decide,
    (claim_C5 chainFailAt2 3 2 (by decide) (by decide)
      (by intro j hj1 hj2; interval_cases j; exact ⟨rfl, rfl⟩)).1 (by decide)⟩

/-- C7 counterexample inputs: two environments agreeing everywhere except
that one sets `BLOCK_TIME=7`, with a small call count for evaluation. -/
def envWithBlockTime : String → Option String :=
  fun k => if k = "BLOCK_TIME" then some "7" else if k = "N" then some "3" else none

def envNoBlockTime : String → Option String :=
  fun k => if k = "N" then some "3" else none

/-- C7, counterexample.  The claim asserts that each of the four recognized
options' values "governs the corresponding program behaviour".  For block
time this is false: `BLOCK_TIME` is read at gas_bench1.py line 20 and never
referenced again (in particular `ANVIL_CMD` is the constant
`["anvil", "--silent"]`), so two runs whose environments differ exactly in
`BLOCK_TIME` (parsed values 7 versus the default 0) exhibit identical
behaviour — same chain-start command, same account pool, same benchmark
output. -/
theorem claim_C7_counterexample :
    BLOCK_TIME envWithBlockTime = some 7
    ∧ BLOCK_TIME envNoBlockTime = some 0
    ∧ envWithBlockTime "NUM_ACCOUNTS" = envNoBlockTime "NUM_ACCOUNTS"
    ∧ envWithBlockTime "N" = envNoBlockTime "N"
    ∧ envWithBlockTime "GAS_GWEI" = envNoBlockTime "GAS_GWEI"
    ∧ gasBench1FromEnv envWithBlockTime stubChain (fun i => i) 0 (fun i => i + 1)
        = gasBench1FromEnv envNoBlockTime stubChain (fun i => i) 0 (fun i => i + 1) := by
  refine ⟨by decide, by decide, by decide, by decide, by decide, by decide⟩

/-- C7, amended.  Each of block time, number of parallel accounts, call
count and gas price is an environment-driven option: its value is the
parsed environment entry when set, and the numeric default (0, 20, 25000, 1
respectively) when unset.  Number of accounts, call count and gas price
govern the corresponding behaviour (pool size, batch length, the gas price
of every submitted transaction); block time is read and parsed at startup
but referenced nowhere else, so its parsed value does not affect behaviour
(last conjunct: runs agreeing on the three used options and on block-time
parse success coincide). -/
theorem claim_C7 (env : String → Option String) :
    (env "BLOCK_TIME" = none → BLOCK_TIME env = some 0)
    ∧ (∀ s v, env "BLOCK_TIME" = some s → pyInt s = some v →
        BLOCK_TIME env = some v)
    ∧ (env "NUM_ACCOUNTS" = none → NUM_ACCOUNTS env = some 20)
    ∧ (∀ s v, env "NUM_ACCOUNTS" = some s → pyInt s = some v →
        NUM_ACCOUNTS env = some v)
    ∧ (env "N" = none → N env = some 25000)
    ∧ (∀ s v, env "N" = some s → pyInt s = some v → N env = some v)
    ∧ (env "GAS_GWEI" = none → GAS_PRICE_GWEI env = some 1)
    ∧ (∀ s v, env "GAS_GWEI" = some s → pyInt s = some v →
        GAS_PRICE_GWEI env = some v)
    ∧ (∀ (baseAddr : Nat) (extraAddr : Nat → Nat) (num : Nat), 1 ≤ num →
        (prepare_accounts baseAddr extraAddr num).length = num)
    ∧ (∀ (chain : Chain) (argsFactory : Nat → Nat) (accounts : List Nat)
          (g n_calls : Nat), 0 < accounts.length →
        ∃ gas txh,
          call_deposit_many_multiacct chain argsFactory accounts
              (to_wei_gwei g) n_calls = some (gas, txh)
          ∧ gas.length = n_calls ∧ txh.length = n_calls)
    ∧ (∀ (chain : Chain) (argsFactory : Nat → Nat) (accounts : List Nat)
          (g n_calls : Nat) (t : Tx),
        t ∈ submittedTxs chain argsFactory accounts (to_wei_gwei g) n_calls →
        t.gasPrice = to_wei_gwei g)
    ∧ (∀ (env2 : String → Option String) (chain : Chain)
          (argsFactory : Nat → Nat) (baseAddr : Nat) (extraAddr : Nat → Nat),
        env "NUM_ACCOUNTS" = env2 "NUM_ACCOUNTS" → env "N" = env2 "N" →
        env "GAS_GWEI" = env2 "GAS_GWEI" →
        (BLOCK_TIME env).isSome = (BLOCK_TIME env2).isSome →
        gasBench1FromEnv env chain argsFactory baseAddr extraAddr
          = gasBench1FromEnv env2 chain argsFactory baseAddr extraAddr) := by
  refine ⟨?_, ?_, ?_, ?_, ?_, ?_, ?_, ?_, ?_, ?_, ?_, ?_⟩
  · intro h; simp [BLOCK_TIME, envGet, h]; decide
  · intro s v hs hv; simp [BLOCK_TIME, envGet, hs, hv]
  · intro h; simp [NUM_ACCOUNTS, envGet, h]; decide
  · intro s v hs hv; simp [NUM_ACCOUNTS, envGet, hs, hv]
  · intro h; simp [N, envGet, h]; decide
  · intro s v hs hv; simp [N, envGet, hs, hv]
  · intro h; simp [GAS_PRICE_GWEI, envGet, h]; decide
  · intro s v hs hv; simp [GAS_PRICE_GWEI, envGet, hs, hv]
  · intro baseAddr extraAddr num hnum
    simp only [prepare_accounts, List.length_cons, List.length_map,
      List.length_range]
    omega
  · intro chain argsFactory accounts g n_calls h
    refine ⟨_, _, call_deposit_many_multiacct_eq chain argsFactory accounts
      (to_wei_gwei g) n_calls (Or.inl h), ?_, ?_⟩
    · rw [List.length_map, List.length_map, submittedTxs_length]
    · rw [List.length_map, submittedTxs_length]
  · intro chain argsFactory accounts g n_calls t ht
    exact pipelineSubmit_gasPrice argsFactory accounts (to_wei_gwei g) n_calls 0
      _ t ht
  · intro env2 chain argsFactory baseAddr extraAddr hNA hN hG hBT
    have e1 : NUM_ACCOUNTS env = NUM_ACCOUNTS env2 := by
      simp [NUM_ACCOUNTS, envGet, hNA]
    have e2 : N env = N env2 := by
      simp [GasBench.N, envGet, hN]
    have e3 : GAS_PRICE_GWEI env = GAS_PRICE_GWEI env2 := by
      simp [GAS_PRICE_GWEI, envGet, hG]
    rcases hb : BLOCK_TIME env with _ | bt
    · rcases hb2 : BLOCK_TIME env2 with _ | bt2
      · simp [gasBench1FromEnv, hb, hb2]
      · rw [hb, hb2] at hBT; simp at hBT
    · rcases hb2 : BLOCK_TIME env2 with _ | bt2
      · rw [hb, hb2] at hBT; simp at hBT
      · simp [gasBench1FromEnv, hb, hb2, e1, e2, e3]

theorem claim_C7_witness :
    envNoBlockTime "BLOCK_TIME" = none ∧ BLOCK_TIME envNoBlockTime = some 0 :=
  ⟨by decide, (claim_C7 envNoBlockTime).1 (by decide)⟩

/-- C8.  Every data row `save_csv` writes renders
`f"{name},{i},{gas},{txh}"`: provided the contract name and transaction
identifier contain no comma (as the program's fixed names and hex digests
do), each data row holds exactly four comma-separated fields (three comma
occurrences), and the number of data rows after the header equals the total
number of recorded results over all contracts. -/
theorem claim_C8 (all_results : List (List Char × List (Nat × Nat × List Char)))
    (hcomma : ∀ nr ∈ all_results, ',' ∉ nr.1 ∧ ∀ row ∈ nr.2, ',' ∉ row.2.2) :
    (∀ line ∈ (save_csv all_results).tail, line.count ',' = 3)
    ∧ (save_csv all_results).tail.length
        = (all_results.map (fun nr => nr.2.length)).sum := by
  constructor
  · intro line hline
    simp only [save_csv, List.tail_cons, List.mem_flatMap] at hline
    rcases hline with ⟨nr, hnr, hline⟩
    rcases List.mem_map.1 hline with ⟨row, hrow, hline2⟩
    rw [← hline2]
    exact csvLine_count_comma nr.1 row.1 row.2.1 row.2.2
      (hcomma nr hnr).1 ((hcomma nr hnr).2 row hrow)
  · simp only [save_csv, List.tail_cons, List.length_flatMap]
    congr 1
    apply List.map_congr_left
    intro nr _
    simp [Function.comp, List.length_map]

theorem claim_C8_witness :
    (∀ nr ∈ ([("DepositContract".data, [(0, 21000, "0xab".data), (1, 21001, "0xcd".data)]),
              ("DepositContractWithProofs".data, [(0, 64000, "0xef".data)])] :
        List (List Char × List (Nat × Nat × List Char))),
      ',' ∉ nr.1 ∧ ∀ row ∈ nr.2, ',' ∉ row.2.2)
    ∧ ((∀ line ∈ (save_csv
          [("DepositContract".data, [(0, 21000, "0xab".data), (1, 21001, "0xcd".data)]),
           ("DepositContractWithProofs".data, [(0, 64000, "0xef".data)])]).tail,
        line.count ',' = 3)
      ∧ (save_csv
          [("DepositContract".data, [(0, 21000, "0xab".data), (1, 21001, "0xcd".data)]),
           ("DepositContractWithProofs".data, [(0, 64000, "0xef".data)])]).tail.length
        = (([("DepositContract".data, [(0, 21000, "0xab".data), (1, 21001, "0xcd".data)]),
             ("DepositContractWithProofs".data, [(0, 64000, "0xef".data)])] :
            List (List Char × List (Nat × Nat × List Char))).map
              (fun nr => nr.2.length)).sum) :=
  ⟨by decide,
    claim_C8
      [("DepositContract".data, [(0, 21000, "0xab".data), (1, 21001, "0xcd".data)]),
       ("DepositContractWithProofs".data, [(0, 64000, "0xef".data)])]
      (by decide)⟩

/-- C9.  In both benchmarks, whenever `main`'s trace contains the
chain-subprocess start step, it also contains the `stop_process` cleanup
step: `run(BUILD_CMD)` precedes the `try`, and once the `try` is entered —
so on normal completion and on every fatal error raised after the subprocess
start — the `finally` clause executes `stop_process`. -/
theorem claim_C9 :
    (∀ e : Env1, Action.startAnvil ∈ (gasBench1Main e).1 →
        Action.stopProcess ∈ (gasBench1Main e).1)
    ∧ (∀ e : Env2, Action.startAnvil ∈ (gasBench2Main e).1 →
        Action.stopProcess ∈ (gasBench2Main e).1) := by
  constructor
  · intro e hmem
    rw [gasBench1Main] at hmem ⊢
    by_cases hb : e.buildOk = false
    · rw [if_pos hb] at hmem
      simp at hmem
    · rw [if_neg hb] at hmem ⊢
      simp
  · intro e hmem
    rw [gasBench2Main] at hmem ⊢
    by_cases hb : e.buildOk = false
    · rw [if_pos hb] at hmem
      simp at hmem
    · rw [if_neg hb] at hmem ⊢
      simp

/-- All-success run environments for the C9 witness. -/
def env1AllOk : Env1 :=
  { buildOk := true, startOk := true, connectOk := true, prepareOk := true,
    load1Ok := true, deploy1Ok := true, load2Ok := true, deploy2Ok := true,
    bench1Ok := true, bench2Ok := true, saveOk := true, plotsOk := true }

def env2AllOk : Env2 :=
  { buildOk := true, startOk := true, connectOk := true,
    load1Ok := true, deploy1Ok := true, load2Ok := true, deploy2Ok := true,
    bench1Ok := true, bench2Ok := true, saveOk := true, plotsOk := true }

theorem claim_C9_witness :
    (Action.startAnvil ∈ (gasBench1Main env1AllOk).1
      ∧ Action.stopProcess ∈ (gasBench1Main env1AllOk).1)
    ∧ (Action.startAnvil ∈ (gasBench2Main env2AllOk).1
      ∧ Action.stopProcess ∈ (gasBench2Main env2AllOk).1) :=
  ⟨⟨by decide, claim_C9.1 env1AllOk (by decide)⟩,
    ⟨by decide, claim_C9.2 env2AllOk (by decide)⟩⟩

end GasBench
